import Mathlib

/-!
# Verification of the café-menu crawl/upload pipeline

A shallow embedding of the crawler → uploader core of the repository:

* the Convex `products.upsertProduct` mutation and its change detection
  (`convex/products.ts`),
* the batch reconciler `dataUploader.uploadProductsFromJson` together with the
  removal/reactivation pass (`convex/dataUploader.ts`; the called
  `products.markProductsAsRemoved` mutation is not part of the sources and is
  modelled from the spec),
* the legacy uploader entry point (`scripts/upload-products.ts` CLI and the
  `findOrCreateCafe`-based `uploadProductsFromJson` variant),
* the per-site extractors (Starbucks listing filter, Mega container extractor,
  Paik per-page dedup, Compose category handler) and the Mega pagination loop.

Machine integers in the source are JS numbers holding timestamps, counts and
prices; they are modelled as `Nat`/`Int` (no overflow is reachable in the
modelled code paths).  Convex `v.optional` arguments that a caller omits (or
passes as `undefined`, which the Convex client strips) are modelled as `none`;
a `db.patch` call leaves fields alone whose key the patch object does not
contain, which the patch model mirrors with `patchOpt`.
-/

/-- A stored `products` row, following the `products` table of the newest
`convex/schema.ts` (`cafeId`, `name`, optional `nameEn`/`category`/
`externalCategory`/`description`/`externalImageUrl`/`imageStorageId`,
`externalId`, `externalUrl`, optional `price`, `isActive`, `addedAt`,
`updatedAt`, optional `removedAt`).  `isActive` is an `Option Bool` because
`upsertProduct` inserts rows without writing the field.  Document ids and
storage ids are opaque and modelled as `Nat`. -/
structure StoredProduct where
  id : Nat
  cafeId : Nat
  name : String
  nameEn : Option String
  category : Option String
  externalCategory : Option String
  description : Option String
  externalImageUrl : Option String
  imageStorageId : Option Nat
  externalId : String
  externalUrl : String
  price : Option Int
  isActive : Option Bool
  addedAt : Nat
  updatedAt : Nat
  removedAt : Option Nat
deriving Repr, DecidableEq

/-- The argument object of the `products.upsertProduct` mutation
(`convex/products.ts`).  Optional validator fields that the caller did not
provide are `none`. -/
structure UpsertArgs where
  cafeId : Nat
  name : String
  nameEn : Option String
  category : String
  externalCategory : Option String
  description : Option String
  externalImageUrl : Option String
  imageStorageId : Option Nat
  externalId : String
  externalUrl : String
  price : Option Int
  downloadImages : Option Bool
deriving Repr, DecidableEq

/-- A `cafes` row (only the fields the modelled code touches). -/
structure Cafe where
  id : Nat
  name : String
  slug : String
deriving Repr, DecidableEq

/-- A scheduled `imageDownloader.downloadAndStoreImageAction` call
(`ctx.scheduler.runAfter(0, ...)` in `upsertProduct`). -/
structure ImageTask where
  imageUrl : String
  productId : Nat
deriving Repr, DecidableEq

/-- The backend state the modelled mutations read and write: the `cafes` and
`products` tables (lists in insertion order, which is the order Convex
iterates for equal index keys), a fresh-id counter, and the queue of
scheduled image-download actions. -/
structure DB where
  cafes : List Cafe
  products : List StoredProduct
  nextId : Nat
  scheduled : List ImageTask
deriving Repr, DecidableEq

inductive UpsertAction
  | created
  | updated
  | unchanged
deriving Repr, DecidableEq

/-- The `{action, id}` object returned by `upsertProduct`. -/
structure UpsertOutcome where
  action : UpsertAction
  id : Nat
deriving Repr, DecidableEq

/-- `ctx.db.query('products').withIndex('by_external_id', q =>
q.eq('externalId', args.externalId)).first()`: the first stored product whose
`externalId` matches, regardless of any other field (the `by_external_id`
index of `convex/schema.ts` is declared on `['externalId']` alone). -/
def findByExternalId (products : List StoredProduct) (extId : String) :
    Option StoredProduct :=
  products.find? (fun p => decide (p.externalId = extId))

/-- The `hasChanges` test of `upsertProduct`: the six compared fields are
`name`, `category`, `price`, `description`, `externalImageUrl` and
`imageStorageId`; `nameEn`, `externalCategory`, `externalUrl` and `cafeId`
are not compared. -/
def hasChanges (existing : StoredProduct) (args : UpsertArgs) : Bool :=
  decide (existing.name ≠ args.name ∨
    existing.category ≠ some args.category ∨
    existing.price ≠ args.price ∨
    existing.description ≠ args.description ∨
    existing.externalImageUrl ≠ args.externalImageUrl ∨
    existing.imageStorageId ≠ args.imageStorageId)

/-- `db.patch` semantics for one optional field: a key present in the patch
object overwrites, an absent key leaves the stored value alone. -/
def patchOpt {α : Type} (newVal oldVal : Option α) : Option α :=
  match newVal with
  | some v => some v
  | none => oldVal

/-- The patch `ctx.db.patch(existing._id, { ...args, updatedAt: now })` of
`upsertProduct` (with the `downloadImages` flag removed from the stored
data).  Required args always overwrite; optional args overwrite only when
provided; `isActive`, `addedAt` and `removedAt` are untouched. -/
def patchProduct (existing : StoredProduct) (args : UpsertArgs) (now : Nat) :
    StoredProduct :=
  { existing with
    cafeId := args.cafeId
    name := args.name
    nameEn := patchOpt args.nameEn existing.nameEn
    category := some args.category
    externalCategory := patchOpt args.externalCategory existing.externalCategory
    description := patchOpt args.description existing.description
    externalImageUrl := patchOpt args.externalImageUrl existing.externalImageUrl
    imageStorageId := patchOpt args.imageStorageId existing.imageStorageId
    externalId := args.externalId
    externalUrl := args.externalUrl
    price := patchOpt args.price existing.price
    updatedAt := now }

/-- The insert `ctx.db.insert('products', { ...args, addedAt: now,
updatedAt: now })` of `upsertProduct`.  `isActive` and `removedAt` are not
written by the mutation. -/
def insertProduct (args : UpsertArgs) (id now : Nat) : StoredProduct :=
  { id := id
    cafeId := args.cafeId
    name := args.name
    nameEn := args.nameEn
    category := some args.category
    externalCategory := args.externalCategory
    description := args.description
    externalImageUrl := args.externalImageUrl
    imageStorageId := args.imageStorageId
    externalId := args.externalId
    externalUrl := args.externalUrl
    price := args.price
    isActive := none
    addedAt := now
    updatedAt := now
    removedAt := none }

/-- Replace the first product whose `externalId` matches (the record that
`findByExternalId` returned and whose `_id` the source patches). -/
def patchFirstByExternalId (products : List StoredProduct) (extId : String)
    (f : StoredProduct → StoredProduct) : List StoredProduct :=
  match products with
  | [] => []
  | p :: ps =>
    if p.externalId = extId then f p :: ps
    else p :: patchFirstByExternalId ps extId f

/-- JS truthiness of `args.externalImageUrl`: present and non-empty. -/
def imageUrlTruthy (url : Option String) : Bool :=
  decide (url.getD "" ≠ "")

/-- The `products.upsertProduct` mutation (`convex/products.ts`): look up the
existing row by `externalId` alone; if present and `hasChanges`, patch it and
(when `downloadImages` is set, the image URL is truthy and the row has no
`imageStorageId` yet) schedule an image download; if present without changes,
do nothing; if absent, insert a fresh row and (when `downloadImages` is set
and the URL truthy) schedule a download. -/
def upsertProduct (db : DB) (args : UpsertArgs) (now : Nat) :
    UpsertOutcome × DB :=
  match findByExternalId db.products args.externalId with
  | some existing =>
    if hasChanges existing args then
      let products :=
        patchFirstByExternalId db.products args.externalId
          (fun p => patchProduct p args now)
      let scheduled :=
        if args.downloadImages.getD false && imageUrlTruthy args.externalImageUrl
            && existing.imageStorageId.isNone then
          db.scheduled ++ [⟨args.externalImageUrl.getD "", existing.id⟩]
        else db.scheduled
      (⟨UpsertAction.updated, existing.id⟩,
        { db with products := products, scheduled := scheduled })
    else
      (⟨UpsertAction.unchanged, existing.id⟩, db)
  | none =>
    let p := insertProduct args db.nextId now
    let scheduled :=
      if args.downloadImages.getD false && imageUrlTruthy args.externalImageUrl then
        db.scheduled ++ [⟨args.externalImageUrl.getD "", db.nextId⟩]
      else db.scheduled
    (⟨UpsertAction.created, db.nextId⟩,
      { db with
          products := db.products ++ [p]
          nextId := db.nextId + 1
          scheduled := scheduled })

/-- The success path of `dataUploader.downloadAndStoreImage` (and of the
scheduled image action): patch the product with the storage id and a fresh
`updatedAt`. -/
def applyImagePatch (db : DB) (productId storageId now : Nat) : DB :=
  { db with
    products := db.products.map (fun p =>
      if p.id = productId then
        { p with imageStorageId := some storageId, updatedAt := now }
      else p) }

/-- One record of the crawler JSON payload, as consumed by the newest
`dataUploader.uploadProductsFromJson` (`CrawlerProduct` in
`convex/dataUploader.ts`).  Fields that the JSON carries as `null` reach the
mutation as absent (`?? undefined` in the glue plus the Convex client
stripping `undefined`), hence `Option`. -/
structure CrawlerProduct where
  name : String
  nameEn : Option String
  description : Option String
  externalCategory : Option String
  externalId : String
  externalImageUrl : Option String
  externalUrl : String
  price : Option Int
  category : Option String
  imageStorageId : Option Nat
deriving Repr, DecidableEq

/-- Build the `upsertProduct` argument object the uploader glue passes
(`{ ...product, cafeId, category: product.category ?? undefined, ...,
downloadImages }`).  `category` is a required `v.string()` argument, so a
record without one fails Convex argument validation before the handler runs;
that failure is the `none` case (caught by the glue's `try/catch`). -/
def toUpsertArgs (r : CrawlerProduct) (cafeId : Nat) (downloadImages : Bool) :
    Option UpsertArgs :=
  match r.category with
  | none => none
  | some cat =>
    some
      { cafeId := cafeId
        name := r.name
        nameEn := r.nameEn
        category := cat
        externalCategory := r.externalCategory
        description := r.description
        externalImageUrl := r.externalImageUrl
        imageStorageId := r.imageStorageId
        externalId := r.externalId
        externalUrl := r.externalUrl
        price := r.price
        downloadImages := some downloadImages }

/-- The `UploadResults` record of `convex/dataUploader.ts` (the
`processingTime` and log-message fields are presentation only and omitted). -/
structure UploadResults where
  processed : Nat
  created : Nat
  updated : Nat
  unchanged : Nat
  skipped : Nat
  removed : Nat
  reactivated : Nat
  errors : List String
  removedProducts : List String
  reactivatedProducts : List String
deriving Repr, DecidableEq

def emptyResults : UploadResults :=
  ⟨0, 0, 0, 0, 0, 0, 0, [], [], []⟩

/-- One iteration of the `uploadProductsToDatabase` loop: run
`upsertProduct` for the record and bump the matching counter, or append to
the error list when the call fails (argument validation). -/
def processOne (cafeId : Nat) (downloadImages : Bool) (now : Nat)
    (acc : UploadResults × DB) (r : CrawlerProduct) : UploadResults × DB :=
  match toUpsertArgs r cafeId downloadImages with
  | none =>
    ({ acc.1 with errors := acc.1.errors ++ ["Failed to upsert " ++ r.name] },
      acc.2)
  | some args =>
    let step := upsertProduct acc.2 args now
    match step.1.action with
    | UpsertAction.created =>
      ({ acc.1 with created := acc.1.created + 1 }, step.2)
    | UpsertAction.updated =>
      ({ acc.1 with updated := acc.1.updated + 1 }, step.2)
    | UpsertAction.unchanged =>
      ({ acc.1 with unchanged := acc.1.unchanged + 1 }, step.2)

/-- The `uploadProductsToDatabase` helper of `convex/dataUploader.ts`:
sequentially upsert every record of the batch, counting
created/updated/unchanged and collecting record-level errors. -/
def uploadProductsToDatabase (db : DB) (batch : List CrawlerProduct)
    (cafeId : Nat) (downloadImages : Bool) (now : Nat) : UploadResults × DB :=
  batch.foldl (processOne cafeId downloadImages now) (emptyResults, db)

/-- Whether the removal pass deactivates a product: it belongs to the café,
is currently active, and its `externalId` is not in the batch. -/
def shouldRemove (cafeId : Nat) (current : List String) (p : StoredProduct) :
    Bool :=
  decide (p.cafeId = cafeId ∧ p.isActive = some true ∧ p.externalId ∉ current)

/-- Whether the removal pass reactivates a product: it belongs to the café,
is currently inactive, and its `externalId` is in the batch. -/
def shouldReactivate (cafeId : Nat) (current : List String)
    (p : StoredProduct) : Bool :=
  decide (p.cafeId = cafeId ∧ p.isActive = some false ∧ p.externalId ∈ current)

/-- The per-product patch of the removal pass. -/
def markOne (cafeId : Nat) (current : List String) (now : Nat)
    (p : StoredProduct) : StoredProduct :=
  if shouldRemove cafeId current p then
    { p with isActive := some false, removedAt := some now }
  else if shouldReactivate cafeId current p then
    { p with isActive := some true, removedAt := none }
  else p

/-- The `{removed, reactivated, removedProducts, reactivatedProducts}`
object returned by `markProductsAsRemoved`. -/
structure MarkResult where
  removed : Nat
  reactivated : Nat
  removedProducts : List String
  reactivatedProducts : List String
deriving Repr, DecidableEq

/-- Modelled from the spec: `dataUploader.uploadProductsFromJson` calls
`api.products.markProductsAsRemoved(cafeId, currentExternalIds)`, but that
mutation's implementation is not among the repository sources (only its call
site and RPC signature are).  Following the spec's words: every stored
product of the café with `isActive = true` whose `externalId` is not in
`currentExternalIds` is patched to `isActive = false, removedAt = now`;
every one with `isActive = false` whose `externalId` is in the list is
patched to `isActive = true, removedAt = null`; the counts and name lists of
the products so patched are returned. -/
def markProductsAsRemoved (db : DB) (cafeId : Nat) (current : List String)
    (now : Nat) : DB × MarkResult :=
  let removedList := db.products.filter (shouldRemove cafeId current)
  let reactivatedList := db.products.filter (shouldReactivate cafeId current)
  ({ db with products := db.products.map (markOne cafeId current now) },
    ⟨removedList.length, reactivatedList.length,
      removedList.map (fun p => p.name),
      reactivatedList.map (fun p => p.name)⟩)

/-- `cafes.getBySlug` (a query: never writes). -/
def getBySlug (db : DB) (slug : String) : Option Cafe :=
  db.cafes.find? (fun c => decide (c.slug = slug))

/-- The newest `dataUploader.uploadProductsFromJson` mutation: resolve the
café by slug (throwing when absent), short-circuit on `dryRun` with zeroed
counts and the first three records as samples, otherwise upsert the whole
batch, then run the removal pass once with
`currentExternalIds = products.map(p => p.externalId)` and merge its counts
into the result. -/
def uploadProductsFromJson (db : DB) (batch : List CrawlerProduct)
    (cafeSlug : String) (dryRun downloadImages : Bool) (now : Nat) :
    Except String (UploadResults × Option (List CrawlerProduct) × DB) :=
  match getBySlug db cafeSlug with
  | none => Except.error ("Cafe not found: " ++ cafeSlug)
  | some cafe =>
    if dryRun then
      Except.ok (emptyResults, some (batch.take 3), db)
    else
      let step := uploadProductsToDatabase db batch cafe.id downloadImages now
      let current := batch.map (fun r => r.externalId)
      let marked := markProductsAsRemoved step.2 cafe.id current now
      Except.ok
        ({ step.1 with
            removed := marked.2.removed
            reactivated := marked.2.reactivated
            removedProducts := marked.2.removedProducts
            reactivatedProducts := marked.2.reactivatedProducts },
          none, marked.1)

/-- `products.findOrCreateCafe`: return the café with the given slug, or
insert one. -/
def findOrCreateCafe (db : DB) (name slug : String) : Nat × DB :=
  match db.cafes.find? (fun c => decide (c.slug = slug)) with
  | some c => (c.id, db)
  | none =>
    (db.nextId,
      { db with
          cafes := db.cafes ++ [⟨db.nextId, name, slug⟩]
          nextId := db.nextId + 1 })

/-- The legacy `uploadProductsFromJson` variant (`scripts` era,
`findOrCreateCafe`-based, no removal pass): resolve the café — creating it
when the slug is unknown — then either short-circuit on `dryRun` with zeroed
counts and `products.slice(0, 3)` as samples, or upsert the batch (the
legacy glue passes no `downloadImages` flag). -/
def legacyProcessOne (cafeId : Nat) (now : Nat) (acc : UploadResults × DB)
    (r : CrawlerProduct) : UploadResults × DB :=
  match toUpsertArgs r cafeId false with
  | none =>
    ({ acc.1 with errors := acc.1.errors ++ ["Failed to upsert " ++ r.name] },
      acc.2)
  | some args =>
    let step := upsertProduct acc.2 { args with downloadImages := none } now
    match step.1.action with
    | UpsertAction.created =>
      ({ acc.1 with created := acc.1.created + 1 }, step.2)
    | UpsertAction.updated =>
      ({ acc.1 with updated := acc.1.updated + 1 }, step.2)
    | UpsertAction.unchanged =>
      ({ acc.1 with unchanged := acc.1.unchanged + 1 }, step.2)

def uploadProductsFromJsonLegacy (db : DB) (products : List CrawlerProduct)
    (cafeName cafeSlug : String) (dryRun : Bool) (now : Nat) :
    UploadResults × Option (List CrawlerProduct) × DB :=
  let resolved := findOrCreateCafe db cafeName cafeSlug
  if dryRun then
    (emptyResults, some (products.take 3), resolved.2)
  else
    let step :=
      products.foldl (legacyProcessOne resolved.1 now) (emptyResults, resolved.2)
    (step.1, none, step.2)

/-- The `UploadResult` summary the uploader CLI (`upload-products.ts`)
receives back from the remote mutation. -/
structure CliUploadResult where
  processed : Nat
  created : Nat
  updated : Nat
  unchanged : Nat
  skipped : Nat
  errors : List String
deriving Repr, DecidableEq

/-- The status lines `handleUploadResult` prints after `printResults`: a
success line when the run was not a dry run and the error list is empty, a
warning line when the error list is non-empty.  The method only logs — it
neither throws nor exits. -/
def handleUploadResultMessages (result : CliUploadResult) (dryRun : Bool) :
    List String :=
  if !dryRun && result.errors.isEmpty then
    ["Upload completed successfully!"]
  else if !result.errors.isEmpty then
    ["Upload completed with " ++ toString result.errors.length ++ " errors"]
  else []

/-- How one `uploadFromFile` invocation of the CLI ends: either the upload
mutation returned a summary (record-level failures live inside its `errors`
list), or something threw (unreadable file, invalid JSON, rejected
mutation). -/
inductive UploadRun
  | completed (result : CliUploadResult)
  | threw (msg : String)
deriving Repr, DecidableEq

/-- The process exit code of the CLI's `main`: `process.exit(1)` inside the
`catch` around `uploader.uploadFromFile(options)`, and the implicit exit
code 0 when `main` returns normally.  No other exit site exists on the
upload path. -/
def mainExitCode (run : UploadRun) : Nat :=
  match run with
  | UploadRun.completed _ => 0
  | UploadRun.threw _ => 1

/-- One candidate element matched by a container selector of the root
Starbucks listing crawler (`starbucks-crawler.ts`): the `data-name`
attribute when present, the trimmed text content of the name sub-element
otherwise, and the image `src`. -/
structure SBElement where
  dataName : Option String
  textName : String
  imageSrc : Option String
deriving Repr, DecidableEq

/-- The listing record the root Starbucks crawler pushes. -/
structure SBProduct where
  name : String
  price : String
  image : String
  category : String
deriving Repr, DecidableEq

/-- Whether `pat` occurs at the head of `hay` (character lists). -/
def charsLead : List Char → List Char → Bool
  | [], _ => true
  | _ :: _, [] => false
  | p :: ps, c :: cs => decide (p = c) && charsLead ps cs

/-- Whether `pat` occurs anywhere in `hay` (character lists). -/
def charsContains (pat : List Char) : List Char → Bool
  | [] => pat.isEmpty
  | c :: t => charsLead pat (c :: t) || charsContains pat t

/-- Substring test on the underlying character lists, mirroring JS
`String.prototype.includes` as the crawlers use it. -/
def containsSub (s pat : String) : Bool :=
  charsContains pat.data s.data

/-- `name = element.getAttribute('data-name') || textContent.trim() || ''`. -/
def sbElementName (e : SBElement) : String :=
  match e.dataName with
  | some n => n
  | none => e.textName

/-- The UI-chrome denylist of the Starbucks listing filter (category /
classification / view / theme / all, in Korean). -/
def sbDenylist : List String :=
  ["카테고리", "분류", "보기", "테마", "전체"]

/-- The primary-path validity filter of the root Starbucks crawler:
`name && name.length > 2 && name.length < 100` and none of the denylisted
substrings occur. -/
def sbNameValid (name : String) : Bool :=
  decide (name ≠ "") && decide (name.length > 2) && decide (name.length < 100)
    && sbDenylist.all (fun d => !containsSub name d)

/-- The primary selector path of the Starbucks `requestHandler`: every
element whose candidate name passes `sbNameValid` becomes a record; failing
candidates are dropped. -/
def sbPrimaryExtract (elems : List SBElement) : List SBProduct :=
  (elems.filter (fun e => sbNameValid (sbElementName e))).map (fun e =>
    ⟨sbElementName e, "Price not available on listing page",
      e.imageSrc.getD "", "Drinks"⟩)

/-- A fallback link of the Starbucks `requestHandler` (used only when no
selector yielded products): href and trimmed text. -/
structure SBLink where
  href : String
  text : String
deriving Repr, DecidableEq

/-- The fallback path filter: `href.includes('product') && text &&
text.length > 2 && text.length < 50` — note: no denylist check. -/
def sbFallbackExtract (links : List SBLink) : List SBProduct :=
  (links.filter (fun l =>
      containsSub l.href "product" && decide (l.text ≠ "")
        && decide (l.text.length > 2) && decide (l.text.length < 50))).map
    (fun l => ⟨l.text, "Price not available", "", "Drinks"⟩)

/-- One matched product container of the Mega crawler
(`mega-crawler.ts` `extractProductData`): the raw text contents and image
`src` the locators resolve (before the `trim() || ...` normalisation). -/
structure MegaContainer where
  titleText : Option String
  text1 : Option String
  text2 : Option String
  imgSrc : Option String
deriving Repr, DecidableEq

/-- Whitespace trimming on the underlying character list (JS
`String.prototype.trim`). -/
def strTrim (s : String) : String :=
  String.mk (((s.data.dropWhile Char.isWhitespace).reverse.dropWhile
    Char.isWhitespace).reverse)

/-- `text?.trim() || ''`. -/
def trimOrEmpty (t : Option String) : String :=
  strTrim (t.getD "")

/-- `text?.trim() || null`. -/
def trimOrNone (t : Option String) : Option String :=
  match t with
  | none => none
  | some s => if strTrim s = "" then none else some (strTrim s)

/-- `src` resolution of the Mega crawler: site-relative URLs get the origin
prefixed. -/
def megaResolveImage (src : Option String) : String :=
  match src with
  | none => ""
  | some s =>
    if s.startsWith "/" then "https://www.mega-mgccoffee.com" ++ s else s

/-- `extractProductData` of `mega-crawler.ts`: a record is produced whenever
the trimmed Korean name is non-empty (`if (name && name.length > 0)`) — no
length cap and no denylist; the `externalId` is synthesized as
`mega_{name}`. -/
def megaExtractProductData (c : MegaContainer) (categoryName : String) :
    Option CrawlerProduct :=
  let name := trimOrEmpty c.titleText
  if name ≠ "" then
    some
      { name := name
        nameEn := trimOrNone c.text1
        description := trimOrNone c.text2
        externalCategory := some categoryName
        externalId := "mega_" ++ name
        externalImageUrl := some (megaResolveImage c.imgSrc)
        externalUrl := ""
        price := none
        category := some "Drinks"
        imageStorageId := none }
  else none

/-- One menu item of the Paik category page (`.menu_list > ul > li`), with
the already-trimmed name, resolved image URL and description the three
extraction helpers return. -/
structure RawMenuItem where
  name : String
  imageUrl : String
  description : String
deriving Repr, DecidableEq

/-- `isValidProductName` of the Paik crawler: truthy, longer than 2, and
containing neither "undefined" nor "null". -/
def paikNameValid (name : String) : Bool :=
  decide (name ≠ "") && decide (name.length > 2)
    && !containsSub name "undefined" && !containsSub name "null"

/-- `createProduct` of the Paik crawler: the `externalId` is synthesized as
`paik_{category}_{name}`; an empty description becomes `null`. -/
def paikCreateProduct (name imageUrl description category pageUrl : String) :
    CrawlerProduct :=
  { name := name
    nameEn := none
    description := if description = "" then none else some description
    externalCategory := some category
    externalId := "paik_" ++ category ++ "_" ++ name
    externalImageUrl := some imageUrl
    externalUrl := pageUrl
    price := none
    category := some category
    imageStorageId := none }

/-- The accumulation loop of the Paik `extractProductsFromPage`: valid-named
items become products, and a product is pushed only when no already-pushed
product carries the same `externalId` (`!products.some(p => p.externalId ===
product.externalId)`). -/
def paikExtractGo (category pageUrl : String) :
    List RawMenuItem → List CrawlerProduct → List CrawlerProduct
  | [], acc => acc
  | x :: xs, acc =>
    if paikNameValid x.name then
      if acc.any (fun p => decide (p.externalId =
          (paikCreateProduct x.name x.imageUrl x.description category
            pageUrl).externalId)) then
        paikExtractGo category pageUrl xs acc
      else
        paikExtractGo category pageUrl xs
          (acc ++ [paikCreateProduct x.name x.imageUrl x.description category
            pageUrl])
    else paikExtractGo category pageUrl xs acc

/-- `extractProductsFromPage` of the Paik crawler: process at most
`min(menuItems.length, 20)` items through the dedup loop. -/
def extractProductsFromPage (items : List RawMenuItem)
    (category pageUrl : String) : List CrawlerProduct :=
  paikExtractGo category pageUrl (items.take 20) []

/-- The per-page "processed" list before dedup: the first twenty items with
a valid name, as products. -/
def paikProcessed (items : List RawMenuItem) (category pageUrl : String) :
    List CrawlerProduct :=
  ((items.take 20).filter (fun x => paikNameValid x.name)).map (fun x =>
    paikCreateProduct x.name x.imageUrl x.description category pageUrl)

/-- `paikProcessed` without the take-20 cap (for reasoning about the
accumulation loop on its remaining input). -/
def paikProcList (category pageUrl : String) (l : List RawMenuItem) :
    List CrawlerProduct :=
  (l.filter (fun x => paikNameValid x.name)).map (fun x =>
    paikCreateProduct x.name x.imageUrl x.description category pageUrl)

/-- One `.itemBox` container of a Compose category page, as resolved by the
Compose `extractProductData` (trimmed name, container id, resolved image
URL). -/
structure ComposeItem where
  productId : String
  name : String
  imageUrl : String
deriving Repr, DecidableEq

/-- The record mapping of the Compose `handleCategoryPage`: every container
with a non-empty name yields a record whose `externalId` is synthesized as
`compose_{categoryId}_{name}` — the handler pushes them all, with no
intra-page dedup. -/
def composeCategoryRecords (items : List ComposeItem)
    (categoryId categoryName url : String) : List CrawlerProduct :=
  (items.filter (fun i => decide (i.name ≠ ""))).map (fun i =>
    { name := i.name
      nameEn := none
      description := none
      externalCategory := some categoryName
      externalId := "compose_" ++ categoryId ++ "_" ++ i.name
      externalImageUrl := some i.imageUrl
      externalUrl := url
      price := none
      category := some "Drinks"
      imageStorageId := none })

/-- What the Mega pagination loop can observe about the page it is on: the
`.board_page_next` locator count, whether the control is
disabled/hidden (the `evaluate` result, with a thrown evaluation counting as
disabled via `.catch(() => true)`), and whether clicking it throws. -/
structure PageProbe where
  nextButtonCount : Nat
  nextDisabled : Bool
  clickFails : Bool
deriving Repr, DecidableEq

/-- The `while (true)` pagination loop of `handleMainMenuPage` in
`mega-crawler.ts`, as the list of page numbers it extracts: extract the
current page, stop when no next-page button exists, when it is disabled or
hidden, or when clicking throws; otherwise click, increment the counter and
stop once it exceeds the hard ceiling of 50.  The recursion measure is the
source's page counter against the ceiling — Lean accepting the definition
is the loop's termination argument. -/
def paginate (env : Nat → PageProbe) (current : Nat) : List Nat :=
  current ::
    (if (env current).nextButtonCount = 0 then []
     else if (env current).nextDisabled then []
     else if (env current).clickFails then []
     else if current + 1 > 50 then []
     else paginate env (current + 1))
termination_by 51 - current
decreasing_by
  simp_wf
  omega

/-- `handleMainMenuPage` starts the loop at `currentPage = 1`. -/
def paginationPages (env : Nat → PageProbe) : List Nat :=
  paginate env 1

/-- Compatibility of an upsert payload with a stored row: every optional
compared field that the payload leaves absent is also absent on the row.
Patching cannot clear a field whose key the patch object lacks, so this is
exactly the condition under which a patch brings the row in sync with the
payload's comparison. -/
def payloadCoversStored (args : UpsertArgs) : Option StoredProduct → Prop
  | none => True
  | some p =>
    (args.price = none → p.price = none) ∧
    (args.description = none → p.description = none) ∧
    (args.externalImageUrl = none → p.externalImageUrl = none) ∧
    (args.imageStorageId = none → p.imageStorageId = none)

/-- `payloadCoversStored` phrased on a crawler record (the uploader glue
copies these four fields verbatim into the upsert args). -/
def recordCovers (r : CrawlerProduct) : Option StoredProduct → Prop
  | none => True
  | some p =>
    (r.price = none → p.price = none) ∧
    (r.description = none → p.description = none) ∧
    (r.externalImageUrl = none → p.externalImageUrl = none) ∧
    (r.imageStorageId = none → p.imageStorageId = none)

/-- Result summary of a (non-throwing) `uploadProductsFromJson` call. -/
def uploadOutcomeResults
    (o : Except String (UploadResults × Option (List CrawlerProduct) × DB)) :
    UploadResults :=
  match o with
  | Except.ok x => x.1
  | Except.error _ => emptyResults

/-- Database state after a (non-throwing) `uploadProductsFromJson` call. -/
def uploadOutcomeDb
    (o : Except String (UploadResults × Option (List CrawlerProduct) × DB))
    (fallback : DB) : DB :=
  match o with
  | Except.ok x => x.2.2
  | Except.error _ => fallback

/-! Concrete instances used by the witnesses and counterexamples below. -/

def c10p : StoredProduct :=
  ⟨1, 1, "Latte", some "Latte", some "Drinks", some "Coffee", some "desc",
    some "img", none, "sb_1", "http://old", some 4500, some true, 0, 0, none⟩

def c10args : UpsertArgs :=
  ⟨1, "Latte", some "Latte EN2", "Drinks", some "NewCat", some "desc",
    some "img", none, "sb_1", "http://new", some 4500, none⟩

def c10db : DB := ⟨[⟨1, "Starbucks", "starbucks"⟩], [c10p], 2, []⟩

def c1p : StoredProduct :=
  ⟨10, 2, "Latte", none, some "Drinks", none, none, none, none, "x", "u",
    none, some true, 0, 0, none⟩

def c1args : UpsertArgs :=
  ⟨1, "Latte Grande", none, "Drinks", none, none, none, none, "x", "u",
    none, none⟩

def c1db : DB := ⟨[⟨1, "A", "a"⟩, ⟨2, "B", "b"⟩], [c1p], 11, []⟩

def c2p : StoredProduct :=
  ⟨3, 1, "Mocha", none, some "Drinks", none, some "tasty", none, none, "m0",
    "u", some 5000, none, 0, 0, none⟩

def c2args : UpsertArgs :=
  ⟨1, "Mocha", none, "Drinks", none, some "tasty", none, none, "m0", "u",
    some 5000, none⟩

def c2db : DB := ⟨[], [c2p], 4, []⟩

def c2args2 : UpsertArgs :=
  ⟨1, "Flat White", none, "Drinks", none, none, none, none, "fw", "u",
    none, none⟩

def c2db2 : DB := ⟨[], [], 0, []⟩

def c2cexP : StoredProduct :=
  ⟨5, 1, "Mocha", none, some "Drinks", none, some "tasty", none, none, "m1",
    "u", none, none, 0, 0, none⟩

def c2cexArgs : UpsertArgs :=
  ⟨1, "Mocha", none, "Drinks", none, none, none, none, "m1", "u", none, none⟩

def c2cexDb : DB := ⟨[], [c2cexP], 6, []⟩

def c3wdb : DB := ⟨[⟨1, "Mega", "mega"⟩], [], 2, []⟩

def c3wr : CrawlerProduct :=
  ⟨"Latte", none, some "d", some "Coffee", "mega_Latte", some "http://i",
    "http://u", some 3000, some "Drinks", none⟩

def c3db0 : DB := ⟨[⟨1, "Mega", "mega"⟩], [], 50, []⟩

def c3r : CrawlerProduct :=
  ⟨"Latte", none, none, some "Coffee", "mega_Latte", some "http://img",
    "http://u", none, some "Drinks", none⟩

/-- State after the first reconciliation pass of the C3 counterexample (run
with image download requested). -/
def c3db1 : DB :=
  uploadOutcomeDb (uploadProductsFromJson c3db0 [c3r] "mega" false true 10)
    c3db0

/-- State after the scheduled image-storage work completed: the stored copy
got storage id 42 at time 15. -/
def c3db2 : DB := applyImagePatch c3db1 50 42 15

def c4p : StoredProduct :=
  ⟨7, 1, "Old Drink", none, some "Drinks", none, none, none, none,
    "compose_1_Old", "u", none, some true, 0, 0, none⟩

def c4db : DB := ⟨[⟨1, "Compose", "compose"⟩], [c4p], 9, []⟩

def c5db : DB := ⟨[], [], 0, []⟩

def c6items : List RawMenuItem :=
  [⟨"Ice Tea", "img1", ""⟩, ⟨"Ice Tea", "img2", ""⟩]

def c6first : CrawlerProduct :=
  paikCreateProduct "Ice Tea" "img1" "" "tea" "u"

def c7name : String :=
  "카테고리aaaaaaaaaaaaaaaaaaaaaaaaaaaaaaaaaaaaaaaaaaaaaaaaaaaaaaaaaaaaaaaaaaaaaaaaaaaaaaaaaaaaaaaaaaaaaaaaaaaaaaaaaaaaaaaaaaaaaaaa"

def sbDemoElems : List SBElement := [⟨none, "Americano", none⟩]

def sbDemoProd : SBProduct :=
  ⟨"Americano", "Price not available on listing page", "", "Drinks"⟩

def megaDemoC : MegaContainer := ⟨some "Latte", none, none, none⟩

def megaDemoP : CrawlerProduct :=
  ⟨"Latte", none, none, some "Coffee", "mega_Latte", some "", "", none,
    some "Drinks", none⟩

def c8env : Nat → PageProbe := fun _ => ⟨0, false, false⟩

def c9result : CliUploadResult :=
  ⟨3, 1, 1, 1, 0, ["Failed to upsert Latte: Error"]⟩

/-! Auxiliary lemmas about the store model. -/

theorem findByExternalId_patchFirst_self (l : List StoredProduct) (e : String)
    (f : StoredProduct → StoredProduct)
    (hf : ∀ p, p.externalId = e → (f p).externalId = e) :
    findByExternalId (patchFirstByExternalId l e f) e =
      (findByExternalId l e).map f := by
  induction l with
  | nil => rfl
  | cons p ps ih =>
    by_cases h : p.externalId = e
    · rw [patchFirstByExternalId]
      simp only [h, if_true]
      unfold findByExternalId
      rw [List.find?_cons_of_pos _ (by simp [hf p h]),
        List.find?_cons_of_pos _ (by simp [h])]
      rfl
    · rw [patchFirstByExternalId]
      simp only [h, if_false]
      unfold findByExternalId
      rw [List.find?_cons_of_neg _ (by simp [h]),
        List.find?_cons_of_neg _ (by simp [h])]
      exact ih

theorem findByExternalId_patchFirst_other (l : List StoredProduct)
    (e e' : String) (f : StoredProduct → StoredProduct) (hne : e' ≠ e)
    (hf : ∀ p, p.externalId = e → (f p).externalId = e) :
    findByExternalId (patchFirstByExternalId l e f) e' =
      findByExternalId l e' := by
  induction l with
  | nil => rfl
  | cons p ps ih =>
    by_cases h : p.externalId = e
    · rw [patchFirstByExternalId]
      simp only [h, if_true]
      unfold findByExternalId
      rw [List.find?_cons_of_neg _ (by simp [hf p h, (Ne.symm hne)]),
        List.find?_cons_of_neg _ (by simp [h, (Ne.symm hne)])]
    · rw [patchFirstByExternalId]
      simp only [h, if_false]
      unfold findByExternalId
      by_cases h' : p.externalId = e'
      · rw [List.find?_cons_of_pos _ (by simp [h']),
          List.find?_cons_of_pos _ (by simp [h'])]
      · rw [List.find?_cons_of_neg _ (by simp [h']),
          List.find?_cons_of_neg _ (by simp [h'])]
        exact ih

theorem findByExternalId_append_other (l : List StoredProduct)
    (q : StoredProduct) (e : String) (h : q.externalId ≠ e) :
    findByExternalId (l ++ [q]) e = findByExternalId l e := by
  induction l with
  | nil =>
    unfold findByExternalId
    rw [List.nil_append, List.find?_cons_of_neg _ (by simp [h])]
  | cons p ps ih =>
    by_cases h' : p.externalId = e
    · unfold findByExternalId
      rw [List.cons_append, List.find?_cons_of_pos _ (by simp [h']),
        List.find?_cons_of_pos _ (by simp [h'])]
    · unfold findByExternalId
      rw [List.cons_append, List.find?_cons_of_neg _ (by simp [h']),
        List.find?_cons_of_neg _ (by simp [h'])]
      exact ih

theorem findByExternalId_append_self (l : List StoredProduct)
    (q : StoredProduct) (h : findByExternalId l q.externalId = none) :
    findByExternalId (l ++ [q]) q.externalId = some q := by
  induction l with
  | nil =>
    unfold findByExternalId
    rw [List.nil_append, List.find?_cons_of_pos _ (by simp)]
  | cons p ps ih =>
    by_cases h' : p.externalId = q.externalId
    · exfalso
      unfold findByExternalId at h
      rw [List.find?_cons_of_pos _ (by simp [h'])] at h
      exact Option.noConfusion h
    · unfold findByExternalId at h ⊢
      rw [List.find?_cons_of_neg _ (by simp [h'])] at h
      rw [List.cons_append, List.find?_cons_of_neg _ (by simp [h'])]
      exact ih h

theorem findByExternalId_map (l : List StoredProduct) (e : String)
    (g : StoredProduct → StoredProduct)
    (hg : ∀ p, (g p).externalId = p.externalId) :
    findByExternalId (l.map g) e = (findByExternalId l e).map g := by
  induction l with
  | nil => rfl
  | cons p ps ih =>
    by_cases h : p.externalId = e
    · unfold findByExternalId
      rw [List.map_cons, List.find?_cons_of_pos _ (by simp [hg, h]),
        List.find?_cons_of_pos _ (by simp [h])]
      rfl
    · unfold findByExternalId
      rw [List.map_cons, List.find?_cons_of_neg _ (by simp [hg, h]),
        List.find?_cons_of_neg _ (by simp [h])]
      exact ih

theorem patchOpt_eq_of_cover {α : Type} (a b : Option α)
    (h : a = none → b = none) : patchOpt a b = a := by
  cases a with
  | some v => rfl
  | none => simp [patchOpt, h rfl]

theorem patchProduct_externalId (p : StoredProduct) (args : UpsertArgs)
    (now : Nat) : (patchProduct p args now).externalId = args.externalId := rfl

theorem hasChanges_patchProduct (p : StoredProduct) (args : UpsertArgs)
    (now : Nat) (hco : payloadCoversStored args (some p)) :
    hasChanges (patchProduct p args now) args = false := by
  obtain ⟨h1, h2, h3, h4⟩ := hco
  simp [hasChanges, patchProduct, patchOpt_eq_of_cover _ _ h1,
    patchOpt_eq_of_cover _ _ h2, patchOpt_eq_of_cover _ _ h3,
    patchOpt_eq_of_cover _ _ h4]

theorem hasChanges_insertProduct (args : UpsertArgs) (id now : Nat) :
    hasChanges (insertProduct args id now) args = false := by
  simp [hasChanges, insertProduct]

theorem upsertProduct_unchanged_eq (db : DB) (args : UpsertArgs) (now : Nat)
    (q : StoredProduct)
    (hq : findByExternalId db.products args.externalId = some q)
    (hcq : hasChanges q args = false) :
    upsertProduct db args now = (⟨UpsertAction.unchanged, q.id⟩, db) := by
  simp [upsertProduct, hq, hcq]

/-- C10: upserting an existing product whose payload agrees with the stored
row on all six compared fields (name, category, price, description,
externalImageUrl, imageStorageId) returns action `unchanged` and performs no
write, whatever the payload's `nameEn`, `externalCategory` and `externalUrl`
say: those values are discarded, the stored row keeps its old values, and
`updatedAt` does not advance, because `hasChanges` covers only the six
compared fields. -/
theorem upsert_uncompared_fields_ignored (db : DB) (args : UpsertArgs)
    (now : Nat) (p : StoredProduct)
    (hfind : findByExternalId db.products args.externalId = some p)
    (hcafe : p.cafeId = args.cafeId)
    (hname : p.name = args.name) (hcat : p.category = some args.category)
    (hprice : p.price = args.price) (hdesc : p.description = args.description)
    (himg : p.externalImageUrl = args.externalImageUrl)
    (hsto : p.imageStorageId = args.imageStorageId) :
    (upsertProduct db args now).1.action = UpsertAction.unchanged ∧
    (upsertProduct db args now).2 = db := by
  have hc : hasChanges p args = false := by
    simp [hasChanges, hname, hcat, hprice, hdesc, himg, hsto]
  simp [upsertProduct, hfind, hc]

theorem upsert_uncompared_fields_ignored_witness :
    (upsertProduct c10db c10args 99).1.action = UpsertAction.unchanged ∧
    (upsertProduct c10db c10args 99).2 = c10db :=
  upsert_uncompared_fields_ignored c10db c10args 99 c10p rfl rfl rfl rfl rfl
    rfl rfl rfl

/-- C1 (amended): `upsertProduct` looks the existing row up by `externalId`
alone — the `by_external_id` index carries no `cafeId` component and the
query adds no `cafeId` filter — so when the first row with the payload's
`externalId` belongs to a different café and any compared field differs, the
upsert patches that other café's row and reassigns its `cafeId` to the
upserting café. -/
theorem upsert_lookup_ignores_cafe (db : DB) (args : UpsertArgs) (now : Nat)
    (p : StoredProduct)
    (hfind : findByExternalId db.products args.externalId = some p)
    (hdiff : p.cafeId ≠ args.cafeId)
    (hchange : hasChanges p args = true) :
    (upsertProduct db args now).1.action = UpsertAction.updated ∧
    findByExternalId (upsertProduct db args now).2.products args.externalId =
      some (patchProduct p args now) ∧
    (patchProduct p args now).cafeId = args.cafeId := by
  refine ⟨?_, ?_, rfl⟩
  · simp [upsertProduct, hfind, hchange]
  · simp only [upsertProduct, hfind, hchange, if_true]
    rw [findByExternalId_patchFirst_self _ _ _
      (fun q _ => patchProduct_externalId q args now), hfind]
    rfl

theorem upsert_lookup_ignores_cafe_witness :
    (upsertProduct c1db c1args 50).1.action = UpsertAction.updated ∧
    findByExternalId (upsertProduct c1db c1args 50).2.products
        c1args.externalId = some (patchProduct c1p c1args 50) ∧
    (patchProduct c1p c1args 50).cafeId = c1args.cafeId :=
  upsert_lookup_ignores_cafe c1db c1args 50 c1p rfl (by decide) (by decide)

/-- C1 counterexample: the claim as stated is false — an upsert for café 1
reads and patches the stored row of café 2 that carries the same
`externalId` (the row even changes owner). -/
theorem upsert_cross_cafe_patch_cex :
    c1p.cafeId = 2 ∧ c1args.cafeId = 1 ∧ c1p.externalId = c1args.externalId ∧
    (upsertProduct c1db c1args 50).1.action = UpsertAction.updated ∧
    (upsertProduct c1db c1args 50).2.products.map
      (fun p => (p.cafeId, p.name)) = [(1, "Latte Grande")] := by
  refine ⟨rfl, rfl, rfl, rfl, ?_⟩
  rfl

/-- C2 (amended): for an upsert of an existing product, `updatedAt` is
rewritten (to `now`) exactly when one of the six compared fields differs
between the stored row and the payload, and an `unchanged` outcome performs
no write.  Upserting the same `externalId` twice with an identical payload
yields `unchanged` (with no write) on the second upsert provided every
optional compared field absent from the payload is also absent on the stored
row — in particular always when the first upsert created the row; without
that proviso a stored value that the payload omits keeps the comparison
unequal forever (see the counterexample), so each repeat counts `updated`
and refreshes `updatedAt`. -/
theorem upsert_change_detection :
    (∀ (db : DB) (args : UpsertArgs) (now : Nat) (p : StoredProduct),
      findByExternalId db.products args.externalId = some p →
      (((upsertProduct db args now).1.action = UpsertAction.unchanged ↔
          ¬(p.name ≠ args.name ∨ p.category ≠ some args.category ∨
            p.price ≠ args.price ∨ p.description ≠ args.description ∨
            p.externalImageUrl ≠ args.externalImageUrl ∨
            p.imageStorageId ≠ args.imageStorageId)) ∧
        ((upsertProduct db args now).1.action = UpsertAction.unchanged →
          (upsertProduct db args now).2 = db) ∧
        ((p.name ≠ args.name ∨ p.category ≠ some args.category ∨
            p.price ≠ args.price ∨ p.description ≠ args.description ∨
            p.externalImageUrl ≠ args.externalImageUrl ∨
            p.imageStorageId ≠ args.imageStorageId) →
          (upsertProduct db args now).1.action = UpsertAction.updated ∧
          findByExternalId (upsertProduct db args now).2.products
              args.externalId = some (patchProduct p args now) ∧
          (patchProduct p args now).updatedAt = now))) ∧
    (∀ (db : DB) (args : UpsertArgs) (t1 t2 : Nat),
      payloadCoversStored args (findByExternalId db.products args.externalId) →
      (upsertProduct (upsertProduct db args t1).2 args t2).1.action =
          UpsertAction.unchanged ∧
      (upsertProduct (upsertProduct db args t1).2 args t2).2 =
        (upsertProduct db args t1).2) := by
  constructor
  · intro db args now p hfind
    by_cases hc : hasChanges p args = true
    · have hdisj := of_decide_eq_true hc
      refine ⟨?_, ?_, fun _ => ⟨?_, ?_, rfl⟩⟩
      · simp [upsertProduct, hfind, hc, hdisj]
      · intro habs
        simp [upsertProduct, hfind, hc] at habs
      · simp [upsertProduct, hfind, hc]
      · simp only [upsertProduct, hfind, hc, if_true]
        rw [findByExternalId_patchFirst_self _ _ _
          (fun q _ => patchProduct_externalId q args now), hfind]
        rfl
    · have hc' : hasChanges p args = false := by
        simpa using hc
      have hdisj := of_decide_eq_false hc'
      refine ⟨?_, ?_, fun hd => absurd hd hdisj⟩
      · simp [upsertProduct, hfind, hc', hdisj]
      · intro _
        simp [upsertProduct, hfind, hc']
  · intro db args t1 t2 hcov
    cases hfind : findByExternalId db.products args.externalId with
    | none =>
      have hdb1 : (upsertProduct db args t1).2.products =
          db.products ++ [insertProduct args db.nextId t1] := by
        simp [upsertProduct, hfind]
      have hfind2 : findByExternalId (upsertProduct db args t1).2.products
          args.externalId = some (insertProduct args db.nextId t1) := by
        rw [hdb1]
        exact findByExternalId_append_self _ _ hfind
      have hc2 := hasChanges_insertProduct args db.nextId t1
      rw [upsertProduct_unchanged_eq _ args t2 _ hfind2 hc2]
      exact ⟨rfl, rfl⟩
    | some p =>
      rw [hfind] at hcov
      by_cases hc : hasChanges p args = true
      · have hdb1 : (upsertProduct db args t1).2.products =
            patchFirstByExternalId db.products args.externalId
              (fun q => patchProduct q args t1) := by
          simp [upsertProduct, hfind, hc]
        have hfind2 : findByExternalId (upsertProduct db args t1).2.products
            args.externalId = some (patchProduct p args t1) := by
          rw [hdb1, findByExternalId_patchFirst_self _ _ _
            (fun q _ => patchProduct_externalId q args t1), hfind]
          rfl
        have hc2 := hasChanges_patchProduct p args t1 hcov
        rw [upsertProduct_unchanged_eq _ args t2 _ hfind2 hc2]
        exact ⟨rfl, rfl⟩
      · have hc' : hasChanges p args = false := by
          simpa using hc
        have hdb1 : (upsertProduct db args t1).2 = db := by
          simp [upsertProduct, hfind, hc']
        have hfind2 : findByExternalId (upsertProduct db args t1).2.products
            args.externalId = some p := by
          rw [hdb1, hfind]
        rw [upsertProduct_unchanged_eq _ args t2 _ hfind2 hc']
        exact ⟨rfl, rfl⟩

theorem upsert_change_detection_witness :
    ((upsertProduct c2db c2args 7).1.action = UpsertAction.unchanged) ∧
    ((upsertProduct (upsertProduct c2db2 c2args2 3).2 c2args2 9).1.action =
      UpsertAction.unchanged) := by
  constructor
  · exact ((upsert_change_detection.1 c2db c2args 7 c2p rfl).1).mpr (by decide)
  · exact (upsert_change_detection.2 c2db2 c2args2 3 9
      (by simp [c2db2, findByExternalId, payloadCoversStored])).1

/-- C2 counterexample: the claim as stated is false — the stored row has a
`description` while the payload carries none, so upserting the identical
payload twice (with no other store activity in between) still yields
`updated` on the second upsert and writes a fresh `updatedAt`. -/
theorem upsert_repeat_payload_cex :
    (upsertProduct (upsertProduct c2cexDb c2cexArgs 5).2 c2cexArgs 9).1.action
        = UpsertAction.updated ∧
    (upsertProduct (upsertProduct c2cexDb c2cexArgs 5).2 c2cexArgs 9).2.products.map
        (fun p => p.updatedAt) = [9] ∧
    (upsertProduct c2cexDb c2cexArgs 5).2.products.map
        (fun p => p.updatedAt) = [5] := by
  refine ⟨?_, ?_, ?_⟩ <;> rfl

theorem findOrCreateCafe_products (db : DB) (name slug : String) :
    (findOrCreateCafe db name slug).2.products = db.products := by
  unfold findOrCreateCafe
  split <;> rfl

/-- C5 (amended): with `dryRun = true` the legacy `uploadProductsFromJson`
resolves the café through `findOrCreateCafe` — a mutation that creates the
café row when the slug is unknown — and then returns before any product
mutation: the products table is untouched, the returned counts are all zero
(with a message naming only the would-be processed count), and the first
three input records are returned as samples. -/
theorem dry_run_no_product_mutation (db : DB)
    (products : List CrawlerProduct) (cafeName cafeSlug : String)
    (now : Nat) :
    (uploadProductsFromJsonLegacy db products cafeName cafeSlug true now).1 =
      emptyResults ∧
    (uploadProductsFromJsonLegacy db products cafeName cafeSlug true now).2.1 =
      some (products.take 3) ∧
    (uploadProductsFromJsonLegacy db products cafeName cafeSlug true
        now).2.2.products = db.products ∧
    (uploadProductsFromJsonLegacy db products cafeName cafeSlug true
        now).2.2.cafes = (findOrCreateCafe db cafeName cafeSlug).2.cafes := by
  refine ⟨rfl, rfl, ?_, rfl⟩
  exact findOrCreateCafe_products db cafeName cafeSlug

/-- C5 counterexample: the claim as stated is false — a dry run against a
store that does not know the slug creates a café row before
short-circuiting, so a store mutation does occur. -/
theorem dry_run_creates_cafe_cex :
    c5db.cafes = [] ∧
    (uploadProductsFromJsonLegacy c5db [] "Starbucks Korea" "starbucks" true
        10).2.2.cafes = [⟨0, "Starbucks Korea", "starbucks"⟩] := by
  exact ⟨rfl, rfl⟩

/-- C7 (amended): in the root Starbucks crawler's primary selector path
every emitted record's name is non-empty, at most 100 characters (the
filter demands strictly fewer than 100) and free of the five denylisted
UI-chrome substrings, and a candidate failing the filter produces no
record; the Mega extractor, however, only requires a non-empty (trimmed)
name — it applies no length cap and no denylist — and the Starbucks
fallback link path checks only `2 < length < 50` without the denylist. -/
theorem extractor_name_filter :
    (∀ (elems : List SBElement) (p : SBProduct),
      p ∈ sbPrimaryExtract elems →
      p.name ≠ "" ∧ p.name.length ≤ 100 ∧
        ∀ d ∈ sbDenylist, containsSub p.name d = false) ∧
    (∀ (c : MegaContainer) (cat : String) (p : CrawlerProduct),
      megaExtractProductData c cat = some p → p.name ≠ "") := by
  constructor
  · intro elems p hp
    unfold sbPrimaryExtract at hp
    rw [List.mem_map] at hp
    obtain ⟨e, he, rfl⟩ := hp
    rw [List.mem_filter] at he
    obtain ⟨-, hv⟩ := he
    unfold sbNameValid at hv
    simp only [Bool.and_eq_true, decide_eq_true_eq, List.all_eq_true] at hv
    obtain ⟨⟨⟨h1, h2⟩, h3⟩, h4⟩ := hv
    refine ⟨h1, by dsimp only; omega, ?_⟩
    intro d hd
    have h5 := h4 d hd
    simpa using h5
  · intro c cat p h
    unfold megaExtractProductData at h
    by_cases hn : trimOrEmpty c.titleText ≠ ""
    · rw [if_pos hn] at h
      have hp := (Option.some.inj h).symm
      subst hp
      exact hn
    · rw [if_neg hn] at h
      exact absurd h (by simp)

theorem extractor_name_filter_witness :
    (sbDemoProd.name ≠ "" ∧ sbDemoProd.name.length ≤ 100 ∧
      ∀ d ∈ sbDenylist, containsSub sbDemoProd.name d = false) ∧
    megaDemoP.name ≠ "" :=
  ⟨extractor_name_filter.1 sbDemoElems sbDemoProd (by decide),
    extractor_name_filter.2 megaDemoC "Coffee" megaDemoP rfl⟩

set_option maxRecDepth 16000 in
/-- C7 counterexample: the claim as stated is false — the Mega extractor
emits a record whose name is 124 characters long and contains the
denylisted substring 카테고리, because its only check is that the trimmed
name is non-empty. -/
theorem mega_name_filter_cex :
    (megaExtractProductData ⟨some c7name, none, none, none⟩ "Coffee").isSome
        = true ∧
    (megaExtractProductData ⟨some c7name, none, none, none⟩ "Coffee").map
        (fun p => p.name) = some c7name ∧
    c7name.length > 100 ∧
    containsSub c7name "카테고리" = true := by
  refine ⟨rfl, rfl, by decide, by decide⟩

theorem paginate_stops (env : Nat → PageProbe) (k : Nat)
    (h : (env k).nextButtonCount = 0 ∨ (env k).nextDisabled = true) :
    paginate env k = [k] := by
  rw [paginate]
  rcases h with h | h
  · rw [if_pos h]
  · by_cases h0 : (env k).nextButtonCount = 0
    · rw [if_pos h0]
    · rw [if_neg h0, if_pos h]

theorem paginate_length_le : ∀ (n : Nat) (env : Nat → PageProbe) (p : Nat),
    51 - p ≤ n → 0 < 51 - p → (paginate env p).length ≤ 51 - p := by
  intro n
  induction n with
  | zero => intro env p h1 h2; omega
  | succ n ih =>
    intro env p h1 h2
    rw [paginate]
    split_ifs with hb hd hc hcap
    · simp only [List.length_cons, List.length_nil]; omega
    · simp only [List.length_cons, List.length_nil]; omega
    · simp only [List.length_cons, List.length_nil]; omega
    · simp only [List.length_cons, List.length_nil]; omega
    · have hrec := ih env (p + 1) (by omega) (by omega)
      simp only [List.length_cons]
      omega

/-- C8: the Mega pagination loop terminates on every page sequence — the
loop is a total function of the page environment — it stops right after
extracting the current page when the next-page control is absent or
disabled/hidden, and the number of extracted pages never exceeds the hard
ceiling of 50. -/
theorem pagination_terminates :
    (∀ env : Nat → PageProbe, (paginationPages env).length ≤ 50) ∧
    (∀ (env : Nat → PageProbe) (k : Nat),
      (env k).nextButtonCount = 0 ∨ (env k).nextDisabled = true →
      paginate env k = [k]) := by
  constructor
  · intro env
    have h := paginate_length_le 50 env 1 (by omega) (by omega)
    unfold paginationPages
    omega
  · exact paginate_stops

theorem pagination_terminates_witness :
    ((c8env 3).nextButtonCount = 0 ∨ (c8env 3).nextDisabled = true) ∧
    paginate c8env 3 = [3] :=
  ⟨Or.inl rfl, pagination_terminates.2 c8env 3 (Or.inl rfl)⟩

/-- C9 (amended): the uploader CLI exits with code 0 whenever the upload
mutation returned — including runs whose result carries record-level errors,
which only produce the "completed with N errors" warning line — and with
code 1 exactly when the process threw. -/
theorem cli_exit_code :
    (∀ r : CliUploadResult, mainExitCode (UploadRun.completed r) = 0) ∧
    (∀ m : String, mainExitCode (UploadRun.threw m) = 1) ∧
    (∀ (res : CliUploadResult) (dryRun : Bool) (e : String)
        (tl : List String),
      handleUploadResultMessages { res with errors := e :: tl } dryRun =
        ["Upload completed with " ++ toString (e :: tl).length ++
          " errors"]) := by
  refine ⟨fun _ => rfl, fun _ => rfl, ?_⟩
  intro res dryRun e tl
  simp [handleUploadResultMessages]

/-- C9 counterexample: the claim as stated is false — a run whose result
lists one record-level error (without a throw) exits with code 0, not 1. -/
theorem cli_record_errors_exit_zero_cex :
    c9result.errors ≠ [] ∧
    mainExitCode (UploadRun.completed c9result) = 0 ∧
    mainExitCode (UploadRun.completed c9result) ≠ 1 := by
  refine ⟨by decide, rfl, by decide⟩

theorem paikExtractGo_nodup (category pageUrl : String) :
    ∀ (l : List RawMenuItem) (acc : List CrawlerProduct),
      (acc.map (fun p => p.externalId)).Nodup →
      ((paikExtractGo category pageUrl l acc).map
        (fun p => p.externalId)).Nodup := by
  intro l
  induction l with
  | nil =>
    intro acc h
    simpa [paikExtractGo] using h
  | cons x xs ih =>
    intro acc h
    rw [paikExtractGo]
    by_cases hv : paikNameValid x.name = true
    · rw [if_pos hv]
      by_cases hmem : acc.any (fun p => decide (p.externalId =
          (paikCreateProduct x.name x.imageUrl x.description category
            pageUrl).externalId)) = true
      · rw [if_pos hmem]
        exact ih acc h
      · rw [if_neg hmem]
        apply ih
        rw [List.map_append, List.nodup_append]
        refine ⟨h, by simp, ?_⟩
        intro a ha hb
        simp only [List.map_cons, List.map_nil, List.mem_singleton] at hb
        subst hb
        rw [List.mem_map] at ha
        obtain ⟨q, hq, hqa⟩ := ha
        apply hmem
        rw [List.any_eq_true]
        exact ⟨q, hq, by simp [hqa]⟩
    · rw [if_neg hv]
      exact ih acc h

theorem paikExtractGo_first (category pageUrl : String) :
    ∀ (l : List RawMenuItem) (acc : List CrawlerProduct)
      (p : CrawlerProduct), p ∈ paikExtractGo category pageUrl l acc →
      p ∈ acc ∨
        (p.externalId ∉ acc.map (fun q => q.externalId) ∧
          (paikProcList category pageUrl l).find?
            (fun q => decide (q.externalId = p.externalId)) = some p) := by
  intro l
  induction l with
  | nil =>
    intro acc p hp
    rw [paikExtractGo] at hp
    exact Or.inl hp
  | cons x xs ih =>
    intro acc p hp
    rw [paikExtractGo] at hp
    by_cases hv : paikNameValid x.name = true
    · rw [if_pos hv] at hp
      by_cases hmem : acc.any (fun q => decide (q.externalId =
          (paikCreateProduct x.name x.imageUrl x.description category
            pageUrl).externalId)) = true
      · rw [if_pos hmem] at hp
        rcases ih acc p hp with h | ⟨hnot, hfind⟩
        · exact Or.inl h
        · refine Or.inr ⟨hnot, ?_⟩
          have hneq : (paikCreateProduct x.name x.imageUrl x.description
              category pageUrl).externalId ≠ p.externalId := by
            intro he
            rw [List.any_eq_true] at hmem
            obtain ⟨q, hq, hq2⟩ := hmem
            rw [decide_eq_true_eq] at hq2
            exact hnot (List.mem_map.mpr ⟨q, hq, by rw [hq2, he]⟩)
          unfold paikProcList
          rw [List.filter_cons_of_pos (by simpa using hv), List.map_cons,
            List.find?_cons_of_neg _ (by simpa using hneq)]
          exact hfind
      · rw [if_neg hmem] at hp
        rcases ih _ p hp with h | ⟨hnot, hfind⟩
        · rw [List.mem_append] at h
          rcases h with h | h
          · exact Or.inl h
          · rw [List.mem_singleton] at h
            subst h
            refine Or.inr ⟨?_, ?_⟩
            · intro hin
              apply hmem
              rw [List.any_eq_true]
              rw [List.mem_map] at hin
              obtain ⟨q, hq, hqa⟩ := hin
              exact ⟨q, hq, by simp [hqa]⟩
            · unfold paikProcList
              rw [List.filter_cons_of_pos (by simpa using hv), List.map_cons,
                List.find?_cons_of_pos _ (by simp)]
        · rw [List.map_append] at hnot
          simp only [List.map_cons, List.map_nil] at hnot
          refine Or.inr ⟨fun hin => hnot (List.mem_append.mpr (Or.inl hin)), ?_⟩
          have hneq : (paikCreateProduct x.name x.imageUrl x.description
              category pageUrl).externalId ≠ p.externalId := by
            intro he
            exact hnot (List.mem_append.mpr (Or.inr (by simp [he])))
          unfold paikProcList
          rw [List.filter_cons_of_pos (by simpa using hv), List.map_cons,
            List.find?_cons_of_neg _ (by simpa using hneq)]
          exact hfind
    · rw [if_neg hv] at hp
      rcases ih acc p hp with h | ⟨hnot, hfind⟩
      · exact Or.inl h
      · refine Or.inr ⟨hnot, ?_⟩
        unfold paikProcList
        rw [List.filter_cons_of_neg (by simpa using hv)]
        exact hfind

/-- C6 (amended): within one extraction pass of the Paik crawler, records
with an identical derived `externalId` are collapsed to one with the
first-seen record kept (the loop drops a product when an already-pushed
product carries its `externalId`), so the emitted `externalId` values of
that pass are pairwise distinct; the Compose category handler, by contrast,
pushes one record per valid container with no intra-page dedup, so its pass
can emit duplicate `externalId` values. -/
theorem paik_dedup_first_wins :
    (∀ (items : List RawMenuItem) (category pageUrl : String),
      ((extractProductsFromPage items category pageUrl).map
        (fun p => p.externalId)).Nodup) ∧
    (∀ (items : List RawMenuItem) (category pageUrl : String)
        (p : CrawlerProduct),
      p ∈ extractProductsFromPage items category pageUrl →
      (paikProcessed items category pageUrl).find?
        (fun q => decide (q.externalId = p.externalId)) = some p) ∧
    (∀ (items : List ComposeItem) (categoryId categoryName url : String),
      (composeCategoryRecords items categoryId categoryName url).length =
        (items.filter (fun i => decide (i.name ≠ ""))).length) := by
  refine ⟨?_, ?_, ?_⟩
  · intro items category pageUrl
    exact paikExtractGo_nodup category pageUrl (items.take 20) [] (by simp)
  · intro items category pageUrl p hp
    rcases paikExtractGo_first category pageUrl (items.take 20) [] p hp with
      h | ⟨-, h⟩
    · simp at h
    · exact h
  · intro items categoryId categoryName url
    simp [composeCategoryRecords]

theorem paik_dedup_first_wins_witness :
    (c6first ∈ extractProductsFromPage c6items "tea" "u") ∧
    (paikProcessed c6items "tea" "u").find?
      (fun q => decide (q.externalId = c6first.externalId)) = some c6first :=
  ⟨by decide, paik_dedup_first_wins.2.1 c6items "tea" "u" c6first (by decide)⟩

/-- C6 counterexample: the claim as stated is false — one Compose category
pass over two containers with the same name emits two records with the same
derived `externalId`: duplicates are not collapsed and the emitted ids are
not pairwise distinct. -/
theorem compose_duplicate_external_ids_cex :
    ((composeCategoryRecords [⟨"d1", "Americano", "i1"⟩,
        ⟨"d2", "Americano", "i2"⟩] "207002" "Coffee" "u").map
      (fun p => p.externalId)) =
      ["compose_207002_Americano", "compose_207002_Americano"] ∧
    ¬((composeCategoryRecords [⟨"d1", "Americano", "i1"⟩,
        ⟨"d2", "Americano", "i2"⟩] "207002" "Coffee" "u").map
      (fun p => p.externalId)).Nodup := by
  refine ⟨rfl, by decide⟩

theorem toUpsertArgs_spec (r : CrawlerProduct) (cid : Nat) (dI : Bool)
    (args : UpsertArgs) (h : toUpsertArgs r cid dI = some args) :
    args.externalId = r.externalId ∧ args.name = r.name ∧
    some args.category = r.category ∧ args.price = r.price ∧
    args.description = r.description ∧
    args.externalImageUrl = r.externalImageUrl ∧
    args.imageStorageId = r.imageStorageId := by
  unfold toUpsertArgs at h
  cases hcat : r.category with
  | none =>
    rw [hcat] at h
    exact absurd h (by simp)
  | some cat =>
    rw [hcat] at h
    have hargs := Option.some.inj h
    subst hargs
    exact ⟨rfl, rfl, rfl, rfl, rfl, rfl, rfl⟩

theorem upsertProduct_find_other (db : DB) (args : UpsertArgs) (t : Nat)
    (e : String) (h : e ≠ args.externalId) :
    findByExternalId (upsertProduct db args t).2.products e =
      findByExternalId db.products e := by
  cases hf : findByExternalId db.products args.externalId with
  | some ex =>
    by_cases hc : hasChanges ex args = true
    · have hdb : (upsertProduct db args t).2.products =
          patchFirstByExternalId db.products args.externalId
            (fun q => patchProduct q args t) := by
        simp [upsertProduct, hf, hc]
      rw [hdb]
      exact findByExternalId_patchFirst_other _ _ _ _ h
        (fun q _ => patchProduct_externalId q args t)
    · have hc' : hasChanges ex args = false := by simpa using hc
      have hdb : (upsertProduct db args t).2 = db := by
        simp [upsertProduct, hf, hc']
      rw [hdb]
  | none =>
    have hdb : (upsertProduct db args t).2.products =
        db.products ++ [insertProduct args db.nextId t] := by
      simp [upsertProduct, hf]
    rw [hdb]
    exact findByExternalId_append_other _ _ _ (fun hh => h (hh.symm))

theorem processOne_db_eq (cid : Nat) (dI : Bool) (t : Nat)
    (acc : UploadResults × DB) (r : CrawlerProduct) :
    (processOne cid dI t acc r).2 =
      (match toUpsertArgs r cid dI with
        | none => acc.2
        | some args => (upsertProduct acc.2 args t).2) := by
  cases harg : toUpsertArgs r cid dI with
  | none => simp [processOne, harg]
  | some args =>
    simp only [processOne, harg]
    cases (upsertProduct acc.2 args t).1.action <;> rfl

theorem processOne_find_other (cid : Nat) (dI : Bool) (t : Nat)
    (acc : UploadResults × DB) (r : CrawlerProduct) (e : String)
    (h : e ≠ r.externalId) :
    findByExternalId (processOne cid dI t acc r).2.products e =
      findByExternalId acc.2.products e := by
  rw [processOne_db_eq]
  cases harg : toUpsertArgs r cid dI with
  | none => rfl
  | some args =>
    have hext := (toUpsertArgs_spec r cid dI args harg).1
    exact upsertProduct_find_other acc.2 args t e (by rw [hext]; exact h)

theorem uploadFold_find_other (cid : Nat) (dI : Bool) (t : Nat) :
    ∀ (l : List CrawlerProduct) (acc : UploadResults × DB) (e : String),
      (∀ r ∈ l, r.externalId ≠ e) →
      findByExternalId ((l.foldl (processOne cid dI t) acc).2).products e =
        findByExternalId acc.2.products e := by
  intro l
  induction l with
  | nil => intro acc e _; rfl
  | cons x xs ih =>
    intro acc e h
    rw [List.foldl_cons,
      ih (processOne cid dI t acc x) e
        (fun r hr => h r (List.mem_cons_of_mem _ hr)),
      processOne_find_other cid dI t acc x e
        (fun he => h x (List.mem_cons_self _ _) he.symm)]

theorem upsertProduct_sync (db : DB) (args : UpsertArgs) (t : Nat)
    (hcov : payloadCoversStored args
      (findByExternalId db.products args.externalId)) :
    ∃ q, findByExternalId (upsertProduct db args t).2.products
        args.externalId = some q ∧ hasChanges q args = false := by
  cases hf : findByExternalId db.products args.externalId with
  | none =>
    refine ⟨insertProduct args db.nextId t, ?_,
      hasChanges_insertProduct args db.nextId t⟩
    have hdb : (upsertProduct db args t).2.products =
        db.products ++ [insertProduct args db.nextId t] := by
      simp [upsertProduct, hf]
    rw [hdb]
    exact findByExternalId_append_self _ _ hf
  | some p =>
    rw [hf] at hcov
    by_cases hc : hasChanges p args = true
    · refine ⟨patchProduct p args t, ?_,
        hasChanges_patchProduct p args t hcov⟩
      have hdb : (upsertProduct db args t).2.products =
          patchFirstByExternalId db.products args.externalId
            (fun q => patchProduct q args t) := by
        simp [upsertProduct, hf, hc]
      rw [hdb, findByExternalId_patchFirst_self _ _ _
        (fun q _ => patchProduct_externalId q args t), hf]
      rfl
    · have hc' : hasChanges p args = false := by simpa using hc
      refine ⟨p, ?_, hc'⟩
      have hdb : (upsertProduct db args t).2 = db := by
        simp [upsertProduct, hf, hc']
      rw [hdb, hf]

theorem recordCovers_toArgs (r : CrawlerProduct) (cid : Nat) (dI : Bool)
    (args : UpsertArgs) (o : Option StoredProduct)
    (h : toUpsertArgs r cid dI = some args) (hco : recordCovers r o) :
    payloadCoversStored args o := by
  obtain ⟨-, -, -, hprice, hdesc, himg, hsto⟩ := toUpsertArgs_spec r cid dI args h
  cases o with
  | none => trivial
  | some p =>
    obtain ⟨k1, k2, k3, k4⟩ := hco
    refine ⟨?_, ?_, ?_, ?_⟩
    · intro hh; exact k1 (by rw [← hprice]; exact hh)
    · intro hh; exact k2 (by rw [← hdesc]; exact hh)
    · intro hh; exact k3 (by rw [← himg]; exact hh)
    · intro hh; exact k4 (by rw [← hsto]; exact hh)

theorem uploadFold_sync (cid : Nat) (dI : Bool) (t : Nat) :
    ∀ (l : List CrawlerProduct) (acc : UploadResults × DB),
      (l.map (fun r => r.externalId)).Nodup →
      (∀ r ∈ l, recordCovers r
        (findByExternalId acc.2.products r.externalId)) →
      ∀ r ∈ l, ∀ args, toUpsertArgs r cid dI = some args →
        ∃ q, findByExternalId
            ((l.foldl (processOne cid dI t) acc).2).products r.externalId =
              some q ∧ hasChanges q args = false := by
  intro l
  induction l with
  | nil =>
    intro acc _ _ r hr
    exact absurd hr (by simp)
  | cons x xs ih =>
    intro acc hnodup hcov r hr args harg
    rw [List.foldl_cons]
    rw [List.map_cons, List.nodup_cons] at hnodup
    rcases List.mem_cons.mp hr with rfl | hr'
    · have hext := (toUpsertArgs_spec r cid dI args harg).1
      have hcov' : payloadCoversStored args
          (findByExternalId acc.2.products args.externalId) :=
        recordCovers_toArgs r cid dI args _ harg
          (hext ▸ hcov r (List.mem_cons_self _ _))
      have hsync : ∃ q, findByExternalId
          ((processOne cid dI t acc r).2).products r.externalId = some q ∧
          hasChanges q args = false := by
        rw [processOne_db_eq, harg, ← hext]
        exact upsertProduct_sync acc.2 args t hcov'
      obtain ⟨q, hq, hcq⟩ := hsync
      refine ⟨q, ?_, hcq⟩
      rw [uploadFold_find_other cid dI t xs (processOne cid dI t acc r)
        r.externalId ?hne]
      · exact hq
      · intro y hy
        intro he
        exact hnodup.1 (List.mem_map.mpr ⟨y, hy, he⟩)
    · refine ih (processOne cid dI t acc x) hnodup.2 ?_ r hr' args harg
      intro y hy
      rw [processOne_find_other cid dI t acc x y.externalId ?hne2]
      · exact hcov y (List.mem_cons_of_mem _ hy)
      · intro he
        exact hnodup.1 (List.mem_map.mpr ⟨y, hy, he⟩)

theorem processOne_noop (cid : Nat) (dI : Bool) (t : Nat)
    (acc : UploadResults × DB) (x : CrawlerProduct)
    (h : ∀ args, toUpsertArgs x cid dI = some args →
      ∃ q, findByExternalId acc.2.products x.externalId = some q ∧
        hasChanges q args = false) :
    (processOne cid dI t acc x).2 = acc.2 ∧
    (processOne cid dI t acc x).1.created = acc.1.created ∧
    (processOne cid dI t acc x).1.updated = acc.1.updated := by
  cases harg : toUpsertArgs x cid dI with
  | none =>
    simp [processOne, harg]
  | some args =>
    obtain ⟨q, hq, hcq⟩ := h args harg
    have hext := (toUpsertArgs_spec x cid dI args harg).1
    have hup := upsertProduct_unchanged_eq acc.2 args t q
      (by rw [hext]; exact hq) hcq
    simp [processOne, harg, hup]

theorem uploadFold_noop (cid : Nat) (dI : Bool) (t : Nat) :
    ∀ (l : List CrawlerProduct) (acc : UploadResults × DB),
      (∀ r ∈ l, ∀ args, toUpsertArgs r cid dI = some args →
        ∃ q, findByExternalId acc.2.products r.externalId = some q ∧
          hasChanges q args = false) →
      (l.foldl (processOne cid dI t) acc).2 = acc.2 ∧
      (l.foldl (processOne cid dI t) acc).1.created = acc.1.created ∧
      (l.foldl (processOne cid dI t) acc).1.updated = acc.1.updated := by
  intro l
  induction l with
  | nil =>
    intro acc _
    exact ⟨rfl, rfl, rfl⟩
  | cons x xs ih =>
    intro acc h
    rw [List.foldl_cons]
    have hx := processOne_noop cid dI t acc x
      (fun args harg => h x (List.mem_cons_self _ _) args harg)
    have hxs := ih (processOne cid dI t acc x)
      (fun r hr args harg => by
        rw [hx.1]
        exact h r (List.mem_cons_of_mem _ hr) args harg)
    exact ⟨by rw [hxs.1, hx.1], by rw [hxs.2.1, hx.2.1],
      by rw [hxs.2.2, hx.2.2]⟩

theorem upsertProduct_cafes (db : DB) (args : UpsertArgs) (t : Nat) :
    (upsertProduct db args t).2.cafes = db.cafes := by
  cases hf : findByExternalId db.products args.externalId with
  | none => simp [upsertProduct, hf]
  | some p =>
    by_cases hc : hasChanges p args = true
    · simp [upsertProduct, hf, hc]
    · have hc' : hasChanges p args = false := by simpa using hc
      simp [upsertProduct, hf, hc']

theorem processOne_cafes (cid : Nat) (dI : Bool) (t : Nat)
    (acc : UploadResults × DB) (r : CrawlerProduct) :
    (processOne cid dI t acc r).2.cafes = acc.2.cafes := by
  rw [processOne_db_eq]
  cases harg : toUpsertArgs r cid dI with
  | none => rfl
  | some args => exact upsertProduct_cafes acc.2 args t

theorem uploadFold_cafes (cid : Nat) (dI : Bool) (t : Nat) :
    ∀ (l : List CrawlerProduct) (acc : UploadResults × DB),
      ((l.foldl (processOne cid dI t) acc).2).cafes = acc.2.cafes := by
  intro l
  induction l with
  | nil => intro acc; rfl
  | cons x xs ih =>
    intro acc
    rw [List.foldl_cons, ih (processOne cid dI t acc x),
      processOne_cafes cid dI t acc x]

theorem markOne_externalId (cid : Nat) (cur : List String) (t : Nat)
    (p : StoredProduct) : (markOne cid cur t p).externalId = p.externalId := by
  unfold markOne
  split_ifs <;> rfl

theorem hasChanges_markOne (cid : Nat) (cur : List String) (t : Nat)
    (p : StoredProduct) (args : UpsertArgs) :
    hasChanges (markOne cid cur t p) args = hasChanges p args := by
  unfold markOne
  split_ifs <;> rfl

theorem markOne_no_cond (cid : Nat) (cur : List String) (t : Nat)
    (p : StoredProduct) :
    shouldRemove cid cur (markOne cid cur t p) = false ∧
    shouldReactivate cid cur (markOne cid cur t p) = false := by
  unfold markOne
  split_ifs with h1 h2
  · simp only [shouldRemove, decide_eq_true_eq] at h1
    constructor
    · simp [shouldRemove]
    · simp [shouldReactivate, h1.2.2]
  · simp only [shouldReactivate, decide_eq_true_eq] at h2
    constructor
    · simp [shouldRemove, h2.2.2]
    · simp [shouldReactivate]
  · exact ⟨by simpa using h1, by simpa using h2⟩

theorem markOne_id_of_no_cond (cid : Nat) (cur : List String) (t : Nat)
    (p : StoredProduct) (h1 : shouldRemove cid cur p = false)
    (h2 : shouldReactivate cid cur p = false) : markOne cid cur t p = p := by
  unfold markOne
  rw [if_neg (by simp [h1]), if_neg (by simp [h2])]

theorem marked_filter_remove_nil (cid : Nat) (cur : List String) (t : Nat)
    (l : List StoredProduct) :
    (l.map (markOne cid cur t)).filter (shouldRemove cid cur) = [] := by
  rw [List.filter_eq_nil_iff]
  intro a ha
  rw [List.mem_map] at ha
  obtain ⟨p, _, rfl⟩ := ha
  simp [(markOne_no_cond cid cur t p).1]

theorem marked_filter_reactivate_nil (cid : Nat) (cur : List String) (t : Nat)
    (l : List StoredProduct) :
    (l.map (markOne cid cur t)).filter (shouldReactivate cid cur) = [] := by
  rw [List.filter_eq_nil_iff]
  intro a ha
  rw [List.mem_map] at ha
  obtain ⟨p, _, rfl⟩ := ha
  simp [(markOne_no_cond cid cur t p).2]

theorem marked_map_id (cid : Nat) (cur : List String) (t1 t2 : Nat)
    (l : List StoredProduct) :
    (l.map (markOne cid cur t1)).map (markOne cid cur t2) =
      l.map (markOne cid cur t1) := by
  have h : ∀ a ∈ l.map (markOne cid cur t1), markOne cid cur t2 a = a := by
    intro a ha
    rw [List.mem_map] at ha
    obtain ⟨p, _, rfl⟩ := ha
    exact markOne_id_of_no_cond cid cur t2 _ (markOne_no_cond cid cur t1 p).1
      (markOne_no_cond cid cur t1 p).2
  exact (List.map_congr_left h).trans (List.map_id _)

theorem reconcile_pass_eq (db : DB) (batch : List CrawlerProduct)
    (cafeSlug : String) (dI : Bool) (t : Nat) (cafe : Cafe)
    (hcafe : getBySlug db cafeSlug = some cafe) :
    uploadProductsFromJson db batch cafeSlug false dI t =
      Except.ok
        ({ (uploadProductsToDatabase db batch cafe.id dI t).1 with
            removed := (((uploadProductsToDatabase db batch cafe.id dI
              t).2.products).filter (shouldRemove cafe.id
              (batch.map (fun r => r.externalId)))).length
            reactivated := (((uploadProductsToDatabase db batch cafe.id dI
              t).2.products).filter (shouldReactivate cafe.id
              (batch.map (fun r => r.externalId)))).length
            removedProducts := ((((uploadProductsToDatabase db batch cafe.id
              dI t).2.products).filter (shouldRemove cafe.id
              (batch.map (fun r => r.externalId)))).map (fun p => p.name))
            reactivatedProducts := ((((uploadProductsToDatabase db batch
              cafe.id dI t).2.products).filter (shouldReactivate cafe.id
              (batch.map (fun r => r.externalId)))).map (fun p => p.name)) },
          none,
          { (uploadProductsToDatabase db batch cafe.id dI t).2 with
              products := ((uploadProductsToDatabase db batch cafe.id dI
                t).2.products).map (markOne cafe.id
                (batch.map (fun r => r.externalId)) t) }) := by
  simp [uploadProductsFromJson, hcafe, markProductsAsRemoved]

/-- C4: after all records of a non-dry-run batch are processed,
`uploadProductsFromJson` computes `currentExternalIds` as the batch's
`externalId` values and applies the removal pass exactly once with them: the
final store is the post-upsert store with `markOne` applied to every
product, where a product of the café with `isActive = true` whose
`externalId` is not in the batch is patched to `isActive = false,
removedAt = now`, a product with `isActive = false` whose `externalId` is in
the batch is patched to `isActive = true, removedAt = null`, and the
returned `removed`/`reactivated` counts are the numbers of products
satisfying the respective conditions. -/
theorem reconcile_removal_pass (db : DB) (batch : List CrawlerProduct)
    (cafeSlug : String) (downloadImages : Bool) (now : Nat) (cafe : Cafe)
    (hcafe : getBySlug db cafeSlug = some cafe) :
    (uploadOutcomeDb (uploadProductsFromJson db batch cafeSlug false
        downloadImages now) db).products =
      ((uploadProductsToDatabase db batch cafe.id downloadImages
        now).2.products).map
        (markOne cafe.id (batch.map (fun r => r.externalId)) now) ∧
    (uploadOutcomeResults (uploadProductsFromJson db batch cafeSlug false
        downloadImages now)).removed =
      (((uploadProductsToDatabase db batch cafe.id downloadImages
        now).2.products).filter (shouldRemove cafe.id
        (batch.map (fun r => r.externalId)))).length ∧
    (uploadOutcomeResults (uploadProductsFromJson db batch cafeSlug false
        downloadImages now)).reactivated =
      (((uploadProductsToDatabase db batch cafe.id downloadImages
        now).2.products).filter (shouldReactivate cafe.id
        (batch.map (fun r => r.externalId)))).length ∧
    (∀ p : StoredProduct,
      shouldRemove cafe.id (batch.map (fun r => r.externalId)) p = true →
      (markOne cafe.id (batch.map (fun r => r.externalId)) now p).isActive =
          some false ∧
      (markOne cafe.id (batch.map (fun r => r.externalId)) now p).removedAt =
          some now) ∧
    (∀ p : StoredProduct,
      shouldReactivate cafe.id (batch.map (fun r => r.externalId)) p = true →
      (markOne cafe.id (batch.map (fun r => r.externalId)) now p).isActive =
          some true ∧
      (markOne cafe.id (batch.map (fun r => r.externalId)) now p).removedAt =
          none) := by
  rw [reconcile_pass_eq db batch cafeSlug downloadImages now cafe hcafe]
  refine ⟨rfl, rfl, rfl, ?_, ?_⟩
  · intro p hp
    unfold markOne
    rw [if_pos hp]
    exact ⟨rfl, rfl⟩
  · intro p hp
    have h1 : shouldRemove cafe.id (batch.map (fun r => r.externalId)) p =
        false := by
      simp only [shouldReactivate, decide_eq_true_eq] at hp
      simp [shouldRemove, hp.2.1]
    unfold markOne
    rw [if_neg (by simp [h1]), if_pos hp]
    exact ⟨rfl, rfl⟩

theorem reconcile_removal_pass_witness :
    getBySlug c4db "compose" = some ⟨1, "Compose", "compose"⟩ ∧
    ((uploadOutcomeDb (uploadProductsFromJson c4db [] "compose" false false
        30) c4db).products =
      ((uploadProductsToDatabase c4db [] 1 false 30).2.products).map
        (markOne 1 [] 30) ∧
    (uploadOutcomeResults (uploadProductsFromJson c4db [] "compose" false
        false 30)).removed =
      (((uploadProductsToDatabase c4db [] 1 false 30).2.products).filter
        (shouldRemove 1 [])).length ∧
    (uploadOutcomeResults (uploadProductsFromJson c4db [] "compose" false
        false 30)).reactivated =
      (((uploadProductsToDatabase c4db [] 1 false 30).2.products).filter
        (shouldReactivate 1 [])).length ∧
    (∀ p : StoredProduct, shouldRemove 1 [] p = true →
      (markOne 1 [] 30 p).isActive = some false ∧
      (markOne 1 [] 30 p).removedAt = some 30) ∧
    (∀ p : StoredProduct, shouldReactivate 1 [] p = true →
      (markOne 1 [] 30 p).isActive = some true ∧
      (markOne 1 [] 30 p).removedAt = none)) :=
  ⟨rfl, reconcile_removal_pass c4db [] "compose" false 30
    ⟨1, "Compose", "compose"⟩ rfl⟩

theorem reconcile_second_pass_zero (d : DB) (batch : List CrawlerProduct)
    (cafeSlug : String) (dI : Bool) (t2 : Nat) (cafe : Cafe)
    (hcafe1 : getBySlug d cafeSlug = some cafe)
    (hsync : ∀ r ∈ batch, ∀ args, toUpsertArgs r cafe.id dI = some args →
      ∃ q, findByExternalId d.products r.externalId = some q ∧
        hasChanges q args = false)
    (hrem : d.products.filter (shouldRemove cafe.id
      (batch.map (fun r => r.externalId))) = [])
    (hrea : d.products.filter (shouldReactivate cafe.id
      (batch.map (fun r => r.externalId))) = [])
    (hmapid : d.products.map (markOne cafe.id
      (batch.map (fun r => r.externalId)) t2) = d.products) :
    (uploadOutcomeResults (uploadProductsFromJson d batch cafeSlug false dI
      t2)).created = 0 ∧
    (uploadOutcomeResults (uploadProductsFromJson d batch cafeSlug false dI
      t2)).updated = 0 ∧
    (uploadOutcomeResults (uploadProductsFromJson d batch cafeSlug false dI
      t2)).removed = 0 ∧
    (uploadOutcomeResults (uploadProductsFromJson d batch cafeSlug false dI
      t2)).reactivated = 0 ∧
    uploadOutcomeDb (uploadProductsFromJson d batch cafeSlug false dI t2) d
      = d := by
  rw [reconcile_pass_eq d batch cafeSlug dI t2 cafe hcafe1]
  have hnoop := uploadFold_noop cafe.id dI t2 batch (emptyResults, d) hsync
  refine ⟨?_, ?_, ?_, ?_, ?_⟩
  · exact hnoop.2.1
  · exact hnoop.2.2
  · show (((uploadProductsToDatabase d batch cafe.id dI t2).2.products).filter
      (shouldRemove cafe.id (batch.map (fun r => r.externalId)))).length = 0
    rw [show (uploadProductsToDatabase d batch cafe.id dI t2).2 = d from
      hnoop.1, hrem]
    rfl
  · show (((uploadProductsToDatabase d batch cafe.id dI t2).2.products).filter
      (shouldReactivate cafe.id
        (batch.map (fun r => r.externalId)))).length = 0
    rw [show (uploadProductsToDatabase d batch cafe.id dI t2).2 = d from
      hnoop.1, hrea]
    rfl
  · show ({ (uploadProductsToDatabase d batch cafe.id dI t2).2 with
        products := ((uploadProductsToDatabase d batch cafe.id dI
          t2).2.products).map (markOne cafe.id
          (batch.map (fun r => r.externalId)) t2) } : DB) = d
    rw [show (uploadProductsToDatabase d batch cafe.id dI t2).2 = d from
      hnoop.1, hmapid]

/-- C3 (amended): reconciling a batch and immediately reconciling the same
batch again yields `created = 0`, `updated = 0`, `removed = 0` and
`reactivated = 0` on the second pass (which also leaves the store
untouched), provided the batch's `externalId` values are pairwise distinct
and every optional compared field absent from a record's payload is also
absent on the matching stored row — in particular provided no scheduled
image-storage work patched `imageStorageId` onto a row between the passes.
When the first pass ran with image download requested and that work
completed in between, the proviso fails and the second pass counts the
affected records as `updated` (see the counterexample). -/
theorem reconcile_idempotent (db : DB) (batch : List CrawlerProduct)
    (cafeSlug : String) (downloadImages : Bool) (t1 t2 : Nat) (cafe : Cafe)
    (hcafe : getBySlug db cafeSlug = some cafe)
    (hnodup : (batch.map (fun r => r.externalId)).Nodup)
    (hcov : ∀ r ∈ batch, recordCovers r
      (findByExternalId db.products r.externalId)) :
    (uploadOutcomeResults (uploadProductsFromJson
      (uploadOutcomeDb (uploadProductsFromJson db batch cafeSlug false
        downloadImages t1) db)
      batch cafeSlug false downloadImages t2)).created = 0 ∧
    (uploadOutcomeResults (uploadProductsFromJson
      (uploadOutcomeDb (uploadProductsFromJson db batch cafeSlug false
        downloadImages t1) db)
      batch cafeSlug false downloadImages t2)).updated = 0 ∧
    (uploadOutcomeResults (uploadProductsFromJson
      (uploadOutcomeDb (uploadProductsFromJson db batch cafeSlug false
        downloadImages t1) db)
      batch cafeSlug false downloadImages t2)).removed = 0 ∧
    (uploadOutcomeResults (uploadProductsFromJson
      (uploadOutcomeDb (uploadProductsFromJson db batch cafeSlug false
        downloadImages t1) db)
      batch cafeSlug false downloadImages t2)).reactivated = 0 ∧
    uploadOutcomeDb (uploadProductsFromJson
      (uploadOutcomeDb (uploadProductsFromJson db batch cafeSlug false
        downloadImages t1) db)
      batch cafeSlug false downloadImages t2)
      (uploadOutcomeDb (uploadProductsFromJson db batch cafeSlug false
        downloadImages t1) db) =
    uploadOutcomeDb (uploadProductsFromJson db batch cafeSlug false
      downloadImages t1) db := by
  have hdb1eq : uploadOutcomeDb (uploadProductsFromJson db batch cafeSlug
      false downloadImages t1) db =
      { (uploadProductsToDatabase db batch cafe.id downloadImages t1).2 with
          products := ((uploadProductsToDatabase db batch cafe.id
            downloadImages t1).2.products).map (markOne cafe.id
            (batch.map (fun r => r.externalId)) t1) } := by
    rw [reconcile_pass_eq db batch cafeSlug downloadImages t1 cafe hcafe]
    rfl
  rw [hdb1eq]
  apply reconcile_second_pass_zero _ batch cafeSlug downloadImages t2 cafe
  · show ((uploadProductsToDatabase db batch cafe.id downloadImages
      t1).2.cafes).find? (fun c => decide (c.slug = cafeSlug)) = some cafe
    rw [show (uploadProductsToDatabase db batch cafe.id downloadImages
      t1).2.cafes = db.cafes from
      uploadFold_cafes cafe.id downloadImages t1 batch (emptyResults, db)]
    exact hcafe
  · intro r hr args harg
    obtain ⟨q, hq, hcq⟩ := uploadFold_sync cafe.id downloadImages t1 batch
      (emptyResults, db) hnodup hcov r hr args harg
    refine ⟨markOne cafe.id (batch.map (fun r2 => r2.externalId)) t1 q,
      ?_, ?_⟩
    · show findByExternalId (((uploadProductsToDatabase db batch cafe.id
        downloadImages t1).2.products).map (markOne cafe.id
        (batch.map (fun r2 => r2.externalId)) t1)) r.externalId =
        some (markOne cafe.id (batch.map (fun r2 => r2.externalId)) t1 q)
      rw [findByExternalId_map _ _ _
        (markOne_externalId cafe.id (batch.map (fun r2 => r2.externalId)) t1)]
      rw [show findByExternalId ((uploadProductsToDatabase db batch cafe.id
        downloadImages t1).2.products) r.externalId = some q from hq]
      rfl
    · rw [hasChanges_markOne]
      exact hcq
  · exact marked_filter_remove_nil cafe.id
      (batch.map (fun r => r.externalId)) t1
      ((uploadProductsToDatabase db batch cafe.id downloadImages
        t1).2.products)
  · exact marked_filter_reactivate_nil cafe.id
      (batch.map (fun r => r.externalId)) t1
      ((uploadProductsToDatabase db batch cafe.id downloadImages
        t1).2.products)
  · exact marked_map_id cafe.id (batch.map (fun r => r.externalId)) t1 t2
      ((uploadProductsToDatabase db batch cafe.id downloadImages
        t1).2.products)

theorem reconcile_idempotent_witness :
    (uploadOutcomeResults (uploadProductsFromJson
      (uploadOutcomeDb (uploadProductsFromJson c3wdb [c3wr] "mega" false
        false 5) c3wdb)
      [c3wr] "mega" false false 6)).created = 0 ∧
    (uploadOutcomeResults (uploadProductsFromJson
      (uploadOutcomeDb (uploadProductsFromJson c3wdb [c3wr] "mega" false
        false 5) c3wdb)
      [c3wr] "mega" false false 6)).updated = 0 ∧
    (uploadOutcomeResults (uploadProductsFromJson
      (uploadOutcomeDb (uploadProductsFromJson c3wdb [c3wr] "mega" false
        false 5) c3wdb)
      [c3wr] "mega" false false 6)).removed = 0 ∧
    (uploadOutcomeResults (uploadProductsFromJson
      (uploadOutcomeDb (uploadProductsFromJson c3wdb [c3wr] "mega" false
        false 5) c3wdb)
      [c3wr] "mega" false false 6)).reactivated = 0 ∧
    uploadOutcomeDb (uploadProductsFromJson
      (uploadOutcomeDb (uploadProductsFromJson c3wdb [c3wr] "mega" false
        false 5) c3wdb)
      [c3wr] "mega" false false 6)
      (uploadOutcomeDb (uploadProductsFromJson c3wdb [c3wr] "mega" false
        false 5) c3wdb) =
    uploadOutcomeDb (uploadProductsFromJson c3wdb [c3wr] "mega" false
      false 5) c3wdb :=
  reconcile_idempotent c3wdb [c3wr] "mega" false 5 6 ⟨1, "Mega", "mega"⟩ rfl
    (by decide)
    (by
      intro r hr
      simp [c3wdb, findByExternalId, recordCovers])

/-- C3 counterexample: the claim as stated is false — after the first pass
(run with image download requested) created the product and the scheduled
image-storage work patched `imageStorageId := 42` onto the stored row, the
second pass over the very same batch reports `updated = 1`, because the
payload still carries no `imageStorageId` and the comparison
`existing.imageStorageId !== args.imageStorageId` stays unequal. -/
theorem reconcile_second_pass_updated_cex :
    c3db1.products.map (fun p => p.imageStorageId) = [none] ∧
    c3db2.products.map (fun p => p.imageStorageId) = [some 42] ∧
    (uploadOutcomeResults (uploadProductsFromJson c3db2 [c3r] "mega" false
      true 20)).created = 0 ∧
    (uploadOutcomeResults (uploadProductsFromJson c3db2 [c3r] "mega" false
      true 20)).updated = 1 := by
  refine ⟨rfl, rfl, rfl, rfl⟩
